import Mathlib

/-!
Verification development for the mock HTTP API engine (src/endpoint.go,
package mockapi).  The engine normalizes an inbound HTTP request into a
comparable fingerprint, matches it against registered expectations, and
dispatches the configured response.  The definitions below are a shallow
embedding of that Go code; external collaborators (the JSON encoding
primitives, the HTTP transport) are abstracted by parameters, and the
pieces implemented by the third-party generic mock-call matcher are
modelled from the specification, as marked in their doc comments.
-/

namespace MockApi

/-- Values appearing in a decoded JSON object (`map[string]interface{}`).
The JSON primitives are an external collaborator; the engine only compares
decoded values for equality, so nested structure is not modelled further. -/
inductive JsonVal where
  | null
  | bool (b : Bool)
  | num (n : Int)
  | str (s : String)
deriving DecidableEq, Repr

/-- The value recorded as the body of a request fingerprint: either the raw
byte slice (`[]byte`, bytes as naturals) or a decoded JSON object
(`map[string]interface{}`; `none` models Go's nil map, which is what
`json.Unmarshal` leaves behind when it fails). -/
inductive BodyVal where
  | bytes (bs : List Nat)
  | objMap (m : Option (List (String × JsonVal)))
deriving DecidableEq, Repr

/-- Body-normalization step of `ServeHTTP` (src/endpoint.go).  `jsonParse`
abstracts `json.Unmarshal` of the bytes into a `map[string]interface{}`
(`some m` when it returns a nil error).  `body?` is `none` when `r.Body`
is nil; `readErr` is true when `ioutil.ReadAll` returns a non-nil error.
Faithful to the code: `body = bodyBytes` first, and then the branch
`if err := json.Unmarshal(bodyBytes, &bodyMap); err != nil` overwrites it
with `bodyMap` (still the nil map on an unmarshal error). -/
def normalizeBody (jsonParse : List Nat → Option (List (String × JsonVal)))
    (body? : Option (List Nat)) (readErr : Bool) : Option BodyVal :=
  match body? with
  | none => none
  | some bodyBytes =>
    if !readErr && bodyBytes.length > 0 then
      match jsonParse bodyBytes with
      | some _ => some (.bytes bodyBytes)
      | none => some (.objMap none)
    else
      none

/-- Association-list lookup, modelling Go map indexing. -/
def assocGet (k : String) : List (String × String) → Option String
  | [] => none
  | (k', v) :: rest => if k' = k then some v else assocGet k rest

/-- Association-list update, modelling Go map assignment `m[k] = v`. -/
def assocSet (m : List (String × String)) (k v : String) : List (String × String) :=
  match m with
  | [] => [(k, v)]
  | (k', v') :: rest => if k' = k then (k, v) :: rest else (k', v') :: assocSet rest k v

/-- The header / query-param loop of `ServeHTTP` (the two loops are
identical up to the error message).  For each entry: a filtered key is
skipped; otherwise the map is created on first use, the key is set to the
first value of the entry, and the `t.Errorf("multi-value ... was
unexpected")` report fires.  Note the code contains no guard on
`len(values)`: the report counter advances for every surviving key.
Returns the map (`none` models the nil Go map) and the number of Errorf
reports. -/
def normLoop (filtered : List String) (acc : Option (List (String × String)))
    (cnt : Nat) : List (String × List String) → Option (List (String × String)) × Nat
  | [] => (acc, cnt)
  | (k, vs) :: rest =>
    if k ∈ filtered then
      normLoop filtered acc cnt rest
    else
      normLoop filtered (some (assocSet (acc.getD []) k (vs.headD ""))) (cnt + 1) rest

/-- Normalization of a header or query multimap, as performed by
`ServeHTTP`: starts from the nil map and zero reports. -/
def normalizeMulti (filtered : List String) (entries : List (String × List String)) :
    Option (List (String × String)) × Nat :=
  normLoop filtered none 0 entries

/-- One of the five values that `ServeHTTP` passes to the mock dispatch
(`m.m.Called(r.Method, r.URL.Path, headers, params, body)`): a string, a
normalized string map (`none` = nil map), or the recorded body value
(`none` = nil interface). -/
inductive ArgVal where
  | str (s : String)
  | strMap (m : Option (List (String × String)))
  | body (b : Option BodyVal)
deriving DecidableEq, Repr

/-- An argument matcher of an expectation: an exact expected value (what
`On` receives for a `WithRequest` registration), `mock.Anything`, or
`mock.AnythingOfType("string")`. -/
inductive Matcher where
  | exact (v : ArgVal)
  | anything
  | anythingOfTypeString
deriving DecidableEq, Repr

/-- Whether one matcher accepts one dispatch argument. -/
def matchArg : Matcher → ArgVal → Bool
  | .exact v, a => decide (v = a)
  | .anything, _ => true
  | .anythingOfTypeString, a =>
    match a with
    | .str _ => true
    | _ => false

/-- Modelled from the spec: a registered matcher list matches a dispatch
argument list under the generic argument matcher by pointwise agreement —
in particular the two lists must have the same length, so a pattern of a
different arity than the call never matches. -/
def matchArgs : List Matcher → List ArgVal → Bool
  | [], [] => true
  | m :: ms, a :: rest => matchArg m a && matchArgs ms rest
  | _, _ => false

/-- An event observable during one `ServeHTTP` dispatch: test-reporter
reports, the matching/counting steps of the mock call, the wait on the
release gate (`WaitUntil` channel), and the two operations of the
response sink (write status code, write body bytes). -/
inductive Event where
  | reportMultiValueHeader
  | reportMultiValueParam
  | matched (i : Nat)
  | incremented (i : Nat)
  | gateWait
  | unmatchedFailure
  | writeStatus (code : Nat)
  | writeBody (bs : List Nat)
deriving DecidableEq, Repr

/-- Whether an event is a write to the response sink. -/
def Event.isWrite : Event → Bool
  | .writeStatus _ => true
  | .writeBody _ => true
  | _ => false

/-- Whether an event is the wait on the release gate. -/
def Event.isGateWait : Event → Bool
  | .gateWait => true
  | _ => false

/-- One registered expectation (a `mock.Call` made through the `MockAPI`
registration surface): its argument matchers, its remaining-call budget
(`Times`-style: `0` means unlimited, `n > 0` means exactly `n` calls),
its call counter, the optional flag set by `Maybe`, the release gate set
by `WaitUntil`, whether the stored return value type-asserts to
`MockResponse` in `ServeHTTP`, and the write events its response function
performs when invoked. -/
structure CallExp where
  matchers : List Matcher
  budget : Nat
  totalCalls : Nat
  optional : Bool
  hasGate : Bool
  respIsMockResponse : Bool
  respEvents : List Event
deriving DecidableEq, Repr

/-- The expected-request description built by `NewMockRequest` and the
`With*` fluent methods: method, path, headers, query params, body. -/
structure MockRequest where
  method : String
  path : String
  headers : Option (List (String × String))
  queryParams : Option (List (String × String))
  body : Option BodyVal
deriving DecidableEq, Repr

/-- `WithRequest` (src/endpoint.go): registers an expectation whose five
matchers are the exact request method, path, headers, query params and
body, returning the stored response function.  Modelled from the spec:
the implicit cardinality of a registration with no explicit cardinality
call is exactly(1) (§4.3), and a fresh expectation starts with a zero
call count. -/
def withRequestExp (req : MockRequest) (resp : List Event) : CallExp :=
  { matchers := [.exact (.str req.method), .exact (.str req.path),
                 .exact (.strMap req.headers), .exact (.strMap req.queryParams),
                 .exact (.body req.body)]
    budget := 1
    totalCalls := 0
    optional := false
    hasGate := false
    respIsMockResponse := true
    respEvents := resp }

/-- `DefaultHandler` (src/endpoint.go): registers
`On("ServeHTTP", mock.AnythingOfType("string"), mock.AnythingOfType("string"),
mock.Anything).Return(response).Times(0)` — three matchers, unlimited
budget.  The stored `response` parameter has the unnamed Go type
`func(http.ResponseWriter, *http.Request)`, so the type assertion
`ret.Get(0).(MockResponse)` in `ServeHTTP` does not hold for it. -/
def defaultHandlerExp (resp : List Event) : CallExp :=
  { matchers := [.anythingOfTypeString, .anythingOfTypeString, .anything]
    budget := 0
    totalCalls := 0
    optional := false
    hasGate := false
    respIsMockResponse := false
    respEvents := resp }

/-- `MockAPICall.Times`: the call is expected to occur exactly `i` times. -/
def Times (i : Nat) (e : CallExp) : CallExp := { e with budget := i }

/-- `MockAPICall.Once`: expected to occur exactly once. -/
def Once (e : CallExp) : CallExp := Times 1 e

/-- `MockAPICall.Twice`: expected to occur exactly twice. -/
def Twice (e : CallExp) : CallExp := Times 2 e

/-- `MockAPICall.Maybe`: marks the call as optional. -/
def Maybe (e : CallExp) : CallExp := { e with optional := true }

/-- `MockAPICall.WaitUntil`: installs the release-gate channel that blocks
the response until it fires. -/
def WaitUntil (e : CallExp) : CallExp := { e with hasGate := true }

/-- Modelled from the spec: an expectation has remaining budget when its
cardinality is unlimited or its call count is below its required count
(§4.2 step 2). -/
def hasBudget (e : CallExp) : Bool := e.budget == 0 || e.totalCalls < e.budget

/-- Modelled from the spec: selection among the registered expectations —
the first one, in registration order, whose matchers match the dispatch
arguments and which has remaining budget (§4.2, FIFO consumption).
Returns its index. -/
def findExpected : List CallExp → List ArgVal → Option Nat
  | [], _ => none
  | e :: rest, args =>
    if matchArgs e.matchers args && hasBudget e then
      some 0
    else
      (findExpected rest args).map (fun i => i + 1)

/-- Increment the call counter of the expectation at index `i`. -/
def consumeAt : List CallExp → Nat → List CallExp
  | [], _ => []
  | e :: rest, 0 => { e with totalCalls := e.totalCalls + 1 } :: rest
  | e :: rest, i + 1 => e :: consumeAt rest i

/-- The expectation at index `i` (total lookup; the callers below only use
it at indices produced by `findExpected`). -/
def getExp (exps : List CallExp) (i : Nat) : CallExp :=
  exps.getD i (defaultHandlerExp [])

/-- Modelled from the spec: the mock dispatch `m.m.Called(...)` — select a
matching expectation with remaining budget (FIFO) and increment its call
counter; when nothing matches, the registry is unchanged and the caller
reports an unmatched-request failure (§4.2 step 4). -/
def methodCalled (exps : List CallExp) (args : List ArgVal) :
    List CallExp × Option Nat :=
  match findExpected exps args with
  | none => (exps, none)
  | some i => (consumeAt exps i, some i)

/-- Per-server configuration of `MockAPI`: the filtered header names, the
filtered query-param names, and the abstracted `json.Unmarshal`. -/
structure MockAPICfg where
  filteredHeaders : List String
  filteredParams : List String
  jsonParse : List Nat → Option (List (String × JsonVal))

/-- A raw inbound request as delivered by the transport: method, path,
header multimap, query multimap, optional body bytes, and whether reading
the body failed. -/
structure InboundRequest where
  method : String
  path : String
  headers : List (String × List String)
  query : List (String × List String)
  body : Option (List Nat)
  readErr : Bool

/-- The five arguments `ServeHTTP` passes to the mock dispatch for an
inbound request, after normalization. -/
def dispatchArgs (cfg : MockAPICfg) (r : InboundRequest) : List ArgVal :=
  [.str r.method, .str r.path,
   .strMap (normalizeMulti cfg.filteredHeaders r.headers).1,
   .strMap (normalizeMulti cfg.filteredParams r.query).1,
   .body (normalizeBody cfg.jsonParse r.body r.readErr)]

/-- The multi-value reports emitted by the two normalization loops of
`ServeHTTP` for one inbound request: one per surviving header key and one
per surviving query key (see `normLoop`). -/
def multiValueReports (cfg : MockAPICfg) (r : InboundRequest) : List Event :=
  List.replicate (normalizeMulti cfg.filteredHeaders r.headers).2
      Event.reportMultiValueHeader ++
    List.replicate (normalizeMulti cfg.filteredParams r.query).2
      Event.reportMultiValueParam

/-- `ServeHTTP` (src/endpoint.go): normalize the body, headers and query
params (emitting one multi-value report per surviving key, as the code
does), dispatch through the mock, and — on a match — wait on the release
gate when one is installed and then run the response function when the
stored return value is a `MockResponse`.  Returns the updated registry
and the event trace of the exchange. -/
def serveHTTP (cfg : MockAPICfg) (exps : List CallExp) (r : InboundRequest) :
    List CallExp × List Event :=
  match methodCalled exps (dispatchArgs cfg r) with
  | (exps', some i) =>
    (exps', multiValueReports cfg r ++ [Event.matched i, Event.incremented i] ++
      (if (getExp exps i).hasGate then [Event.gateWait] else []) ++
      (if (getExp exps i).respIsMockResponse then (getExp exps i).respEvents else []))
  | (exps', none) => (exps', multiValueReports cfg r ++ [Event.unmatchedFailure])

/-- Outcome of running the response function installed by `WithJSONReply`:
normal return, a failure reported through the attached test reporter, or
a panic (`withErr` records whether the panicked value is the non-nil
encoding error or Go's nil). -/
inductive JsonReplyOutcome where
  | ok
  | reported (msg : String)
  | panicked (withErr : Bool)
deriving DecidableEq, Repr

/-- The response function installed by `WithJSONReply` (src/endpoint.go):
write the status code; return if the reply is nil; otherwise encode the
reply (`encode` abstracts `json.NewEncoder(w).Encode`, which writes the
bytes on success and writes nothing on a marshalling error) and then
either check the error through the attached reporter
(`require.NoError(m.t, err)`) or, with no reporter, `panic(err)`.
Returns the sink writes and the outcome. -/
def jsonReplyFn {α : Type} (tAttached : Bool) (status : Nat) (reply : Option α)
    (encode : α → Except String (List Nat)) : List Event × JsonReplyOutcome :=
  match reply with
  | none => ([Event.writeStatus status], .ok)
  | some v =>
    match encode v with
    | .ok bs =>
      ([Event.writeStatus status, Event.writeBody bs],
       if tAttached then .ok else .panicked false)
    | .error msg =>
      ([Event.writeStatus status],
       if tAttached then .reported msg else .panicked true)

/-- Modelled from the spec: the per-expectation test of the final
assert-all check (§4.2) — an expectation is unmet when it is not optional,
carries a required count (a `Times(0)` registration such as the default
handler is never required), and its call count differs from that count. -/
def unmet (e : CallExp) : Bool :=
  !e.optional && e.budget != 0 && e.totalCalls != e.budget

/-- Modelled from the spec: the assert-all check reports one named failure
per unmet expectation; this returns their indices. -/
def assertAllFailures (exps : List CallExp) : List Nat :=
  (List.range exps.length).filter (fun i => unmet (getExp exps i))

/-- `MockAPI.AssertExpectations` (src/endpoint.go): with a nil `TestingT`
it returns immediately without asserting anything; otherwise it runs the
assert-all check.  Returns the (unchanged) registry and the reported
failures. -/
def AssertExpectations (t : Option Unit) (exps : List CallExp) :
    List CallExp × List Nat :=
  match t with
  | none => (exps, [])
  | some _ => (exps, assertAllFailures exps)

/-! ### Shared helper lemmas -/

/-- The dispatch arguments of an inbound request whose normalized
fingerprint equals a registered request description — exactly the five
values `ServeHTTP` passes to the mock for such a request. -/
def argsOfRequest (req : MockRequest) : List ArgVal :=
  [.str req.method, .str req.path, .strMap req.headers,
   .strMap req.queryParams, .body req.body]

lemma matchArgs_withRequest (req : MockRequest) (resp : List Event) :
    matchArgs (withRequestExp req resp).matchers (argsOfRequest req) = true := by
  simp [withRequestExp, argsOfRequest, matchArgs, matchArg]

lemma all_replicate (n : Nat) (e : Event) (p : Event → Bool) (h : p e = true) :
    (List.replicate n e).all p = true := by
  induction n with
  | zero => rfl
  | succ k ih => simp [List.replicate_succ, List.all_cons, h, ih]

lemma multiValueReports_not_gate (cfg : MockAPICfg) (r : InboundRequest) :
    (multiValueReports cfg r).all (fun e => !e.isGateWait) = true := by
  simp only [multiValueReports, List.all_append]
  rw [all_replicate _ _ _ rfl, all_replicate _ _ _ rfl]
  rfl

lemma multiValueReports_not_write (cfg : MockAPICfg) (r : InboundRequest) :
    (multiValueReports cfg r).all (fun e => !e.isWrite) = true := by
  simp only [multiValueReports, List.all_append]
  rw [all_replicate _ _ _ rfl, all_replicate _ _ _ rfl]
  rfl

lemma takeWhile_append_stop (p : Event → Bool) (l1 : List Event) (x : Event)
    (l2 : List Event) (h : l1.all p = true) (hx : p x = false) :
    (l1 ++ x :: l2).takeWhile p = l1 := by
  induction l1 with
  | nil => simp [List.takeWhile_cons, hx]
  | cons a t ih =>
    simp only [List.all_cons, Bool.and_eq_true] at h
    simp [List.takeWhile_cons, h.1, ih h.2]

lemma assocGet_assocSet_ne (k k' v : String) (m : List (String × String))
    (h : k' ≠ k) : assocGet k (assocSet m k' v) = assocGet k m := by
  induction m with
  | nil => simp [assocSet, assocGet, h]
  | cons a rest ih =>
    by_cases hk : a.1 = k'
    · simp [assocSet, assocGet, hk, h, ih]
    · simp only [assocSet, assocGet, hk]
      by_cases hk2 : a.1 = k
      · simp [hk2]
      · simp [hk2, ih]

lemma normLoop_get_filtered (filtered : List String) (k : String)
    (hk : k ∈ filtered) :
    ∀ (entries : List (String × List String))
      (acc : Option (List (String × String))) (cnt : Nat),
      assocGet k (acc.getD []) = none →
      assocGet k ((normLoop filtered acc cnt entries).1.getD []) = none := by
  intro entries
  induction entries with
  | nil => intro acc cnt h; exact h
  | cons e rest ih =>
    obtain ⟨ke, vs⟩ := e
    intro acc cnt h
    by_cases he : ke ∈ filtered
    · simpa [normLoop, he] using ih acc cnt h
    · have hne : ke ≠ k := fun heq => he (heq ▸ hk)
      have h2 : assocGet k (assocSet (acc.getD []) ke (vs.headD "")) = none := by
        rw [assocGet_assocSet_ne _ _ _ _ hne]; exact h
      simpa [normLoop, he] using
        ih (some (assocSet (acc.getD []) ke (vs.headD ""))) (cnt + 1) h2

lemma normLoop_all_filtered (filtered : List String) :
    ∀ (entries : List (String × List String))
      (acc : Option (List (String × String))) (cnt : Nat),
      (∀ e ∈ entries, e.1 ∈ filtered) →
      normLoop filtered acc cnt entries = (acc, cnt) := by
  intro entries
  induction entries with
  | nil => intro acc cnt _; rfl
  | cons e rest ih =>
    obtain ⟨ke, vs⟩ := e
    intro acc cnt h
    have he : ke ∈ filtered := h (ke, vs) (List.mem_cons_self (ke, vs) rest)
    have hrest : ∀ x ∈ rest, x.1 ∈ filtered :=
      fun x hx => h x (List.mem_cons_of_mem (ke, vs) hx)
    simpa [normLoop, he] using ih acc cnt hrest

lemma normLoop_filter_invariant (filtered : List String) :
    ∀ (entries : List (String × List String))
      (acc : Option (List (String × String))) (cnt : Nat),
      normLoop filtered acc cnt
          (entries.filter (fun e => !(decide (e.1 ∈ filtered)))) =
        normLoop filtered acc cnt entries := by
  intro entries
  induction entries with
  | nil => intro acc cnt; rfl
  | cons e rest ih =>
    obtain ⟨ke, vs⟩ := e
    intro acc cnt
    by_cases he : ke ∈ filtered
    · rw [List.filter_cons, if_neg (by simp [he])]
      rw [show normLoop filtered acc cnt ((ke, vs) :: rest) =
            normLoop filtered acc cnt rest from by simp [normLoop, he]]
      exact ih acc cnt
    · rw [List.filter_cons, if_pos (by simp [he])]
      rw [show normLoop filtered acc cnt ((ke, vs) :: rest) =
            normLoop filtered (some (assocSet (acc.getD []) ke (vs.headD "")))
              (cnt + 1) rest from by simp [normLoop, he]]
      rw [show normLoop filtered acc cnt ((ke, vs) ::
            rest.filter (fun e => !(decide (e.1 ∈ filtered)))) =
            normLoop filtered (some (assocSet (acc.getD []) ke (vs.headD "")))
              (cnt + 1) (rest.filter (fun e => !(decide (e.1 ∈ filtered))))
            from by simp [normLoop, he]]
      exact ih _ (cnt + 1)

/-! ### Claim theorems -/

/-- The byte sequence of the JSON object body used as failing input:
`{"a":1}`. -/
def c1objBytes : List Nat := [123, 34, 97, 34, 58, 49, 125]

/-- A concrete instance of the abstracted `json.Unmarshal`: parses
`{"a":1}` into the mapping `a ↦ 1` and fails on every other input (such
as the bytes of `not-json`). -/
def c1parse (bs : List Nat) : Option (List (String × JsonVal)) :=
  if bs = c1objBytes then some [("a", JsonVal.num 1)] else none

/-- C1: for ServeHTTP's body recording, the claim says a successful JSON
parse records the decoded mapping and a failed parse keeps the raw bytes.
The code does the reverse: its `err != nil` test is inverted, so the body
bytes `{"a":1}` (which parse successfully) are recorded as the raw byte
sequence, and unparsable bytes are recorded as the (nil) decoded map
instead of being kept as-is.  The absent/zero-length cases do record an
absent body. -/
theorem c1_body_recording_inverted :
    normalizeBody c1parse (some c1objBytes) false = some (.bytes c1objBytes) ∧
    normalizeBody c1parse (some [110, 111, 116]) false = some (.objMap none) ∧
    normalizeBody c1parse (some []) false = none ∧
    normalizeBody c1parse none false = none :=
  ⟨rfl, rfl, rfl, rfl⟩

/-- C2: the claim says the multi-value report fires iff some surviving
header/query key has more than one value.  In the code the guard on the
number of values is missing: a single surviving single-valued header
`Foo: bar` already produces one report.  (A multi-valued key does proceed
with its first value, also producing one report per key rather than one
per extra value.) -/
theorem c2_multivalue_report_unconditional :
    normalizeMulti [] [("Foo", ["bar"])] = (some [("Foo", "bar")], 1) ∧
    normalizeMulti [] [("Foo", ["a", "b"])] = (some [("Foo", "a")], 1) :=
  ⟨rfl, rfl⟩

/-- Configuration with nothing filtered and a JSON parser that always
fails, used for the default-handler scenario. -/
def c3cfg : MockAPICfg := ⟨[], [], fun _ => none⟩

/-- A bare GET request with no headers, query params or body. -/
def c3req : InboundRequest := ⟨"GET", "/foo", [], [], none, false⟩

/-- C3: the claim says a registered default handler absorbs any request
that no exact expectation claims.  `DefaultHandler` registers only three
argument matchers while `ServeHTTP` dispatches with five arguments, so
the default handler never matches anything: even a bare request with only
the default handler registered is reported as an unmatched failure and
the handler's response function is never invoked. -/
theorem c3_default_handler_never_selected :
    findExpected [defaultHandlerExp [Event.writeStatus 200]]
      (dispatchArgs c3cfg c3req) = none ∧
    serveHTTP c3cfg [defaultHandlerExp [Event.writeStatus 200]] c3req =
      ([defaultHandlerExp [Event.writeStatus 200]], [Event.unmatchedFailure]) :=
  ⟨rfl, rfl⟩

/-- C4: two expectations registered with identical match criteria and
`Times(1)` each are consumed FIFO by registration order: the first
matching dispatch selects (and counts against) the first-registered one,
and a second matching dispatch on the resulting registry selects the
second-registered one, leaving both call counters at one. -/
theorem c4_fifo_consumption (req : MockRequest) (resp1 resp2 : List Event) :
    (methodCalled [Times 1 (withRequestExp req resp1),
        Times 1 (withRequestExp req resp2)] (argsOfRequest req)).2 = some 0 ∧
    ((methodCalled [Times 1 (withRequestExp req resp1),
        Times 1 (withRequestExp req resp2)] (argsOfRequest req)).1.map
      (fun e => e.totalCalls)) = [1, 0] ∧
    (methodCalled ((methodCalled [Times 1 (withRequestExp req resp1),
        Times 1 (withRequestExp req resp2)] (argsOfRequest req)).1)
      (argsOfRequest req)).2 = some 1 ∧
    ((methodCalled ((methodCalled [Times 1 (withRequestExp req resp1),
        Times 1 (withRequestExp req resp2)] (argsOfRequest req)).1)
      (argsOfRequest req)).1.map (fun e => e.totalCalls)) = [1, 1] := by
  have hm : ∀ resp : List Event,
      matchArgs (Times 1 (withRequestExp req resp)).matchers (argsOfRequest req) =
        true := by
    intro resp
    simpa [Times] using matchArgs_withRequest req resp
  refine ⟨?_, ?_, ?_, ?_⟩ <;>
    simp [methodCalled, findExpected, consumeAt, hasBudget, hm, Times,
      withRequestExp, matchArgs, matchArg, argsOfRequest]

/-- Configuration for the release-gate scenario: nothing filtered, JSON
parsing never succeeds. -/
def c5cfg : MockAPICfg := ⟨[], [], fun _ => none⟩

/-- The gated registration: a GET of /gated answered with status 200,
with a `WaitUntil` release gate installed. -/
def c5exps : List CallExp :=
  [WaitUntil (withRequestExp ⟨"GET", "/gated", none, none, none⟩
    [Event.writeStatus 200])]

/-- The matching inbound request for the release-gate scenario. -/
def c5inb : InboundRequest := ⟨"GET", "/gated", [], [], none, false⟩

/-- C5: when the selected expectation carries a release gate, the
dispatch trace waits on the gate, every event before the gate wait is a
non-write (no status code, no body bytes reach the response sink before
the gate fires), and the call-count increment has already happened before
the gate wait. -/
theorem c5_gate_blocks_writes (cfg : MockAPICfg) (exps : List CallExp)
    (r : InboundRequest) (i : Nat)
    (hfind : findExpected exps (dispatchArgs cfg r) = some i)
    (hgate : (getExp exps i).hasGate = true) :
    Event.gateWait ∈ (serveHTTP cfg exps r).2 ∧
    ((serveHTTP cfg exps r).2.takeWhile (fun e => !e.isGateWait)).all
      (fun e => !e.isWrite) = true ∧
    Event.incremented i ∈
      (serveHTTP cfg exps r).2.takeWhile (fun e => !e.isGateWait) := by
  have htr : (serveHTTP cfg exps r).2 =
      (multiValueReports cfg r ++ [Event.matched i, Event.incremented i]) ++
        Event.gateWait ::
          (if (getExp exps i).respIsMockResponse then (getExp exps i).respEvents
            else []) := by
    simp [serveHTTP, methodCalled, hfind, hgate]
  have hall : (multiValueReports cfg r ++
      [Event.matched i, Event.incremented i]).all (fun e => !e.isGateWait) =
        true := by
    simp only [List.all_append, multiValueReports_not_gate, Bool.true_and]
    rfl
  have htake : (serveHTTP cfg exps r).2.takeWhile (fun e => !e.isGateWait) =
      multiValueReports cfg r ++ [Event.matched i, Event.incremented i] := by
    rw [htr, takeWhile_append_stop _ _ Event.gateWait _ hall rfl]
  refine ⟨?_, ?_, ?_⟩
  · rw [htr]
    exact List.mem_append_right _ (List.mem_cons_self _ _)
  · rw [htake]
    simp only [List.all_append, multiValueReports_not_write, Bool.true_and]
    rfl
  · rw [htake]
    exact List.mem_append_right _ (by simp)

/-- Witness for C5: the concrete gated registration above is selected for
the matching request, its gate flag is set, and the conclusion of the
gate theorem holds for it. -/
theorem c5_gate_blocks_writes_witness :
    findExpected c5exps (dispatchArgs c5cfg c5inb) = some 0 ∧
    (getExp c5exps 0).hasGate = true ∧
    (Event.gateWait ∈ (serveHTTP c5cfg c5exps c5inb).2 ∧
      ((serveHTTP c5cfg c5exps c5inb).2.takeWhile (fun e => !e.isGateWait)).all
        (fun e => !e.isWrite) = true ∧
      Event.incremented 0 ∈
        (serveHTTP c5cfg c5exps c5inb).2.takeWhile (fun e => !e.isGateWait)) :=
  ⟨rfl, rfl, c5_gate_blocks_writes c5cfg c5exps c5inb 0 rfl rfl⟩

/-- C6: the JSON-reply response function writes the status code first and
then the encoded reply bytes; on an encoding failure the status code has
still been written first, the failure is reported through the attached
test reporter when there is one, and with no reporter attached it panics
with the error instead of being silently ignored. -/
theorem c6_json_reply_dispatch {α : Type} (tA : Bool) (status : Nat) (v : α)
    (encode : α → Except String (List Nat)) :
    (∀ bs, encode v = .ok bs →
      (jsonReplyFn tA status (some v) encode).1 =
        [Event.writeStatus status, Event.writeBody bs]) ∧
    (∀ msg, encode v = .error msg →
      (jsonReplyFn tA status (some v) encode).1 = [Event.writeStatus status] ∧
      (tA = true →
        (jsonReplyFn tA status (some v) encode).2 = .reported msg) ∧
      (tA = false →
        (jsonReplyFn tA status (some v) encode).2 = .panicked true)) := by
  constructor
  · intro bs h
    simp [jsonReplyFn, h]
  · intro msg h
    refine ⟨by simp [jsonReplyFn, h], ?_, ?_⟩ <;> intro ht <;>
      simp [jsonReplyFn, h, ht]

/-- A concrete stand-in for the JSON encoder: encodes `0` as the byte
`49` and fails with "boom" on everything else. -/
def c6enc (n : Nat) : Except String (List Nat) :=
  if n = 0 then .ok [49] else .error "boom"

/-- Witness for C6: with the concrete encoder, a successful dispatch
writes the status then the body, and a failing one with no reporter
attached panics with the error. -/
theorem c6_json_reply_dispatch_witness :
    (jsonReplyFn true 200 (some 0) c6enc).1 =
      [Event.writeStatus 200, Event.writeBody [49]] ∧
    (jsonReplyFn false 500 (some 1) c6enc).2 = .panicked true :=
  ⟨(c6_json_reply_dispatch true 200 0 c6enc).1 [49] rfl,
    (((c6_json_reply_dispatch false 500 1 c6enc).2 "boom" rfl).2.2) rfl⟩

/-- Configuration for the unmatched-request scenario. -/
def c7cfg : MockAPICfg := ⟨[], [], fun _ => none⟩

/-- An inbound request for which nothing at all is registered. -/
def c7inb : InboundRequest := ⟨"DELETE", "/nothing", [], [], none, false⟩

/-- Counterexample for C7: with an empty registry, the unmatched request
is reported as a failure but the exchange trace contains no write at all
— in particular no status code is written to the response sink, contrary
to the claim. -/
theorem c7_no_status_written_counterexample :
    Event.unmatchedFailure ∈ (serveHTTP c7cfg [] c7inb).2 ∧
    (serveHTTP c7cfg [] c7inb).2.all (fun e => !e.isWrite) = true :=
  ⟨by decide, by decide⟩

/-- C7 (amended): whenever no registered expectation matches the
normalized fingerprint, the unmatched-request failure is reported to the
ambient test reporter, the registry is left unchanged, and the engine
writes nothing — neither a status code nor body bytes — to the response
sink; completing the exchange is left to the transport. -/
theorem c7_unmatched_reported_no_write (cfg : MockAPICfg) (exps : List CallExp)
    (r : InboundRequest)
    (h : findExpected exps (dispatchArgs cfg r) = none) :
    (serveHTTP cfg exps r).1 = exps ∧
    Event.unmatchedFailure ∈ (serveHTTP cfg exps r).2 ∧
    (serveHTTP cfg exps r).2.all (fun e => !e.isWrite) = true := by
  have htr : serveHTTP cfg exps r =
      (exps, multiValueReports cfg r ++ [Event.unmatchedFailure]) := by
    simp [serveHTTP, methodCalled, h]
  refine ⟨by rw [htr], ?_, ?_⟩
  · rw [htr]
    exact List.mem_append_right _ (List.mem_cons_self _ _)
  · rw [htr]
    simp only [List.all_append, multiValueReports_not_write, Bool.true_and]
    rfl

/-- Witness for C7's amended theorem at a concrete unmatched request. -/
theorem c7_unmatched_reported_no_write_witness :
    findExpected ([] : List CallExp) (dispatchArgs c7cfg c7inb) = none ∧
    ((serveHTTP c7cfg [] c7inb).1 = [] ∧
      Event.unmatchedFailure ∈ (serveHTTP c7cfg [] c7inb).2 ∧
      (serveHTTP c7cfg [] c7inb).2.all (fun e => !e.isWrite) = true) :=
  ⟨rfl, c7_unmatched_reported_no_write c7cfg [] c7inb rfl⟩

/-- C8: (1) a key in the filtered set is absent from the normalized map
whatever its values; (2) when every inbound key is filtered the map is
nil; (3) removing the filtered entries from the inbound multimap does not
change the normalization result at all, so an expectation registered
without expecting a filtered header matches a request carrying it just as
it matches the request without it. -/
theorem c8_filtered_headers_absent :
    (∀ (filtered : List String) (entries : List (String × List String))
      (k : String), k ∈ filtered →
      assocGet k ((normalizeMulti filtered entries).1.getD []) = none) ∧
    (∀ (filtered : List String) (entries : List (String × List String)),
      (∀ e ∈ entries, e.1 ∈ filtered) →
      (normalizeMulti filtered entries).1 = none) ∧
    (∀ (filtered : List String) (entries : List (String × List String)),
      normalizeMulti filtered
          (entries.filter (fun e => !(decide (e.1 ∈ filtered)))) =
        normalizeMulti filtered entries) := by
  refine ⟨?_, ?_, ?_⟩
  · intro filtered entries k hk
    exact normLoop_get_filtered filtered k hk entries none 0 rfl
  · intro filtered entries h
    rw [normalizeMulti, normLoop_all_filtered filtered entries none 0 h]
  · intro filtered entries
    exact normLoop_filter_invariant filtered entries none 0

/-- Witness for C8 at a concrete filtered header: `X-Token` is filtered
away whatever its value, a request carrying only `X-Token` normalizes to
the nil map, and dropping the filtered entry leaves the fingerprint of a
mixed request unchanged. -/
theorem c8_filtered_headers_absent_witness :
    assocGet "X-Token"
      ((normalizeMulti ["X-Token"] [("X-Token", ["secret"])]).1.getD []) =
        none ∧
    (normalizeMulti ["X-Token"] [("X-Token", ["secret"])]).1 = none ∧
    normalizeMulti ["X-Token"]
        ([("X-Token", ["secret"]), ("Accept", ["json"])].filter
          (fun e => !(decide (e.1 ∈ ["X-Token"])))) =
      normalizeMulti ["X-Token"] [("X-Token", ["secret"]), ("Accept", ["json"])] :=
  ⟨c8_filtered_headers_absent.1 ["X-Token"] [("X-Token", ["secret"])]
      "X-Token" (by decide),
    c8_filtered_headers_absent.2.1 ["X-Token"] [("X-Token", ["secret"])]
      (by decide),
    c8_filtered_headers_absent.2.2 ["X-Token"]
      [("X-Token", ["secret"]), ("Accept", ["json"])]⟩

/-- C9: a `Maybe`-marked registration is never reported unmet by the
assert-all check, whatever its call count; a registration left at the
default cardinality is reported unmet exactly when its call count is not
one; and no optional expectation ever appears among the reported
assert-all failures. -/
theorem c9_maybe_and_default_cardinality :
    (∀ (req : MockRequest) (resp : List Event) (c : Nat),
      unmet { Maybe (withRequestExp req resp) with totalCalls := c } = false) ∧
    (∀ (req : MockRequest) (resp : List Event) (c : Nat),
      (unmet { withRequestExp req resp with totalCalls := c } = true ↔ c ≠ 1)) ∧
    (∀ (exps : List CallExp) (i : Nat),
      (getExp exps i).optional = true → i ∉ assertAllFailures exps) := by
  refine ⟨?_, ?_, ?_⟩
  · intro req resp c
    simp [unmet, Maybe, withRequestExp]
  · intro req resp c
    simp [unmet, withRequestExp]
  · intro exps i h hmem
    rw [assertAllFailures] at hmem
    have := (List.mem_filter.mp hmem).2
    simp [unmet, h] at this

/-- Witness for C9: a `Maybe`-marked registration that was never called
is not among the assert-all failures. -/
theorem c9_maybe_and_default_cardinality_witness :
    (getExp [Maybe (withRequestExp ⟨"GET", "/opt", none, none, none⟩ [])]
        0).optional = true ∧
    0 ∉ assertAllFailures
        [Maybe (withRequestExp ⟨"GET", "/opt", none, none, none⟩ [])] :=
  ⟨rfl, c9_maybe_and_default_cardinality.2.2
    [Maybe (withRequestExp ⟨"GET", "/opt", none, none, none⟩ [])] 0 rfl⟩

/-- C10: `AssertExpectations` with a nil `TestingT` reports nothing and
leaves the registry unchanged — while the very same registry, asserted
with a reporter attached, does report its never-called required
expectation. -/
theorem c10_assert_with_nil_t :
    (∀ exps : List CallExp, AssertExpectations none exps = (exps, [])) ∧
    (AssertExpectations (some ())
        [withRequestExp ⟨"GET", "/w", none, none, none⟩ []]).2 = [0] :=
  ⟨fun _ => rfl, by decide⟩

end MockApi
